import Mathlib

/-!
Shallow embedding of the autoposter core of the repository
(`src/autoposter/mod.rs` and `src/autoposter/twilight_impl.rs`).

Timestamps (`std::time::Instant`) and durations (`core::time::Duration`)
are modelled as natural numbers counting nanoseconds; `Instant::duration_since`
saturates at zero, which truncated `Nat` subtraction matches.
Guild identifiers (`u64`) are modelled as `Nat`; the `HashSet<u64>` membership
cache is a `Finset Nat`.

Besides the state transformation each function performs, we record the
sequence of observable primitive actions (lock acquisitions and releases,
field stamps, the opaque network post, the error log) in the exact order
and lock scoping the Rust source produces, so that ordering and
lock-held-during-call properties can be stated.
-/

/-- Modelled from the spec: the `Stats` struct itself is not under `src/`
(only its field accesses are). Spec §3 "Metrics": optional resource count and
optional shard count, mutated through the counter store's guard. -/
structure Stats where
  server_count : Option Nat
  shard_count : Option Nat
deriving DecidableEq

/-- Modelled from the spec: `Stats::from(0)` (used by `SharedStats::new`,
`mod.rs` line 84) is not under `src/`. Spec §3: "Defaults to
`resource_count = 0`, `shard_count = None` at construction"; the doc comment on
`SharedStats::new` says the stats inside default to zero server count. -/
def Stats.fromCount (n : Nat) : Stats :=
  { server_count := some n, shard_count := none }

/-- `SharedStatsGuard::set_server_count` (`mod.rs` lines 52-54):
`self.guard.server_count = Some(server_count);`. -/
def Stats.set_server_count (s : Stats) (n : Nat) : Stats :=
  { s with server_count := some n }

/-- `SharedStatsGuard::set_shard_count` (`mod.rs` lines 58-60):
`self.guard.shard_count = Some(shard_count);`. -/
def Stats.set_shard_count (s : Stats) (n : Nat) : Stats :=
  { s with shard_count := some n }

/-- The mutable state of the `Twilight` handler (`twilight_impl.rs` lines
15-21): the `HashSet<u64>` membership cache, the shared stats, the minimum
posting interval and the instant of the last post attempt. The HTTP client
is opaque and carries no state relevant to the claims. -/
structure Twilight where
  cache : Finset Nat
  stats : Stats
  min_interval : Nat
  last_post : Option Nat
deriving DecidableEq

/-- `Twilight::new` (`twilight_impl.rs` lines 25-33): empty cache,
`SharedStats::new()` (hence `Stats::from(0)`), the given interval, and
`last_post = None`. -/
def Twilight.new (min_interval : Nat) : Twilight :=
  { cache := ∅
    stats := Stats.fromCount 0
    min_interval := min_interval
    last_post := none }

/-- The twilight gateway events `Twilight::handle` matches on
(`twilight_impl.rs` lines 51-88): `Ready` carries the ids of the full guild
set, `GuildCreate`/`GuildDelete` carry one id, and every other event kind is
collapsed into `other`. -/
inductive Event where
  | ready (guilds : List Nat)
  | guildCreate (id : Nat)
  | guildDelete (id : Nat)
  | other
deriving DecidableEq

/-- The four lock guards appearing in the source: the cache mutex, the stats
`RwLock` in write and in read mode, and the `last_post` mutex. -/
inductive Lock where
  | cacheL
  | statsWriteL
  | statsReadL
  | lastPostL
deriving DecidableEq

/-- Observable primitive actions, in source order: guard acquisitions and
releases (a guard is released where Rust drops it, at the end of its lexical
scope, in reverse declaration order), field stamps, the opaque network post
with the stats snapshot it reads, and the `eprintln!` error report. -/
inductive Act where
  | acquire (l : Lock)
  | release (l : Lock)
  | setCache (c : Finset Nat)
  | setServerCount (n : Nat)
  | setLastPost (t : Nat)
  | post (s : Stats)
  | logError
deriving DecidableEq

/-- The gate condition of `Twilight::try_post` (`twilight_impl.rs` line 39):
`last.map_or(true, |l| now.duration_since(l) >= self.min_interval)`. -/
def gateOpen (st : Twilight) (now : Nat) : Bool :=
  match st.last_post with
  | none => true
  | some l => decide (st.min_interval ≤ now - l)

/-- Result of `Twilight::try_post`: the state after the call, whether the
opaque post operation was invoked, the value returned to the caller
(`Result<(), crate::Error>`), and the action trace. -/
structure TryPostOut where
  state : Twilight
  posted : Bool
  ret : Except String Unit
  trace : List Act

/-- `Twilight::try_post` (`twilight_impl.rs` lines 36-47). `now` is the
instant captured on entry; `postOk` is whether the opaque
`client.post_stats` call succeeds. Source order inside the open-gate branch:
lock `last_post`; stamp `*last = Some(now)`; read-acquire the stats lock;
invoke `post_stats` on that snapshot; `eprintln!` on error; drop the stats
read guard at the end of the `if` block; drop the `last_post` guard at the
end of the function; return `Ok(())`. -/
def Twilight.try_post (st : Twilight) (now : Nat) (postOk : Bool) : TryPostOut :=
  if gateOpen st now then
    { state := { st with last_post := some now }
      posted := true
      ret := Except.ok ()
      trace := [Act.acquire Lock.lastPostL, Act.setLastPost now,
                Act.acquire Lock.statsReadL, Act.post st.stats] ++
               (if postOk then [] else [Act.logError]) ++
               [Act.release Lock.statsReadL, Act.release Lock.lastPostL] }
  else
    { state := st
      posted := false
      ret := Except.ok ()
      trace := [Act.acquire Lock.lastPostL, Act.release Lock.lastPostL] }

/-- Result of `Twilight::handle`: Rust returns `()`, so only the state after
the call, whether a post was made, and the action trace are recorded. -/
structure HandleOut where
  state : Twilight
  posted : Bool
  trace : List Act
deriving DecidableEq

/-- `Twilight::handle` (`twilight_impl.rs` lines 50-89).

`Ready`: lock the cache, write-lock the stats, wholesale-replace the cache
with the ids of `ready.guilds`, `set_server_count(cache.len())`, call
`try_post` (all guards still held), then drop the stats and cache guards at
the end of the arm.

`GuildCreate`: lock the cache and insert; only when `insert` reports a new
element, write-lock the stats, `set_server_count(cache.len())`, call
`try_post`, drop the stats guard at the end of the `if` block, and drop the
cache guard at the end of the arm.

`GuildDelete`: symmetric with `remove`.

Any other event: `_ => {}`, no effect and no action. -/
def Twilight.handle (st : Twilight) (e : Event) (now : Nat) (postOk : Bool) : HandleOut :=
  match e with
  | Event.ready guilds =>
      let cache' := guilds.toFinset
      let stats' := st.stats.set_server_count cache'.card
      let st' := { st with cache := cache', stats := stats' }
      let tp := st'.try_post now postOk
      { state := tp.state
        posted := tp.posted
        trace := [Act.acquire Lock.cacheL, Act.acquire Lock.statsWriteL,
                  Act.setCache cache', Act.setServerCount cache'.card] ++
                 tp.trace ++
                 [Act.release Lock.statsWriteL, Act.release Lock.cacheL] }
  | Event.guildCreate id =>
      if id ∈ st.cache then
        { state := st
          posted := false
          trace := [Act.acquire Lock.cacheL, Act.release Lock.cacheL] }
      else
        let cache' := insert id st.cache
        let stats' := st.stats.set_server_count cache'.card
        let st' := { st with cache := cache', stats := stats' }
        let tp := st'.try_post now postOk
        { state := tp.state
          posted := tp.posted
          trace := [Act.acquire Lock.cacheL, Act.setCache cache',
                    Act.acquire Lock.statsWriteL, Act.setServerCount cache'.card] ++
                   tp.trace ++
                   [Act.release Lock.statsWriteL, Act.release Lock.cacheL] }
  | Event.guildDelete id =>
      if id ∈ st.cache then
        let cache' := st.cache.erase id
        let stats' := st.stats.set_server_count cache'.card
        let st' := { st with cache := cache', stats := stats' }
        let tp := st'.try_post now postOk
        { state := tp.state
          posted := tp.posted
          trace := [Act.acquire Lock.cacheL, Act.setCache cache',
                    Act.acquire Lock.statsWriteL, Act.setServerCount cache'.card] ++
                   tp.trace ++
                   [Act.release Lock.statsWriteL, Act.release Lock.cacheL] }
      else
        { state := st
          posted := false
          trace := [Act.acquire Lock.cacheL, Act.release Lock.cacheL] }
  | Event.other =>
      { state := st, posted := false, trace := [] }

/-- Number of invocations of the opaque post operation recorded in a trace. -/
def postsIn (tr : List Act) : Nat :=
  tr.countP fun a => match a with | Act.post _ => true | _ => false

/-- Number of `eprintln!` failure reports recorded in a trace. -/
def logsIn (tr : List Act) : Nat :=
  tr.countP fun a => match a with | Act.logError => true | _ => false

/-- Number of post attempts (entries into `try_post`, i.e. acquisitions of
the `last_post` mutex) recorded in a trace. -/
def attemptsIn (tr : List Act) : Nat :=
  tr.countP fun a => match a with
    | Act.acquire Lock.lastPostL => true
    | _ => false

/-- The multiset of guards held just before the action at index `i` of the
trace (a guard acquired twice is counted twice). -/
def heldAt (tr : List Act) (i : Nat) : List Lock :=
  (tr.take i).foldl
    (fun acc a => match a with
      | Act.acquire l => l :: acc
      | Act.release l => acc.erase l
      | _ => acc) []

/-- Scan of a trace: `seen` records whether a `last_post := now` stamp has
already occurred; every post action must find `seen = true`. -/
def stampBeforePostAux (now : Nat) (seen : Bool) : List Act → Bool
  | [] => true
  | a :: rest =>
      match a with
      | Act.setLastPost t => stampBeforePostAux now (seen || (t == now)) rest
      | Act.post _ => seen && stampBeforePostAux now seen rest
      | _ => stampBeforePostAux now seen rest

/-- `true` iff every invocation of the post operation in the trace is
preceded by a stamp of `last_post := now`. -/
def stampBeforePost (now : Nat) (tr : List Act) : Bool :=
  stampBeforePostAux now false tr

/-- Folding `Twilight.handle` over a list of events, each paired with its
arrival instant and the success of the post operation should one happen. -/
def processAll (st : Twilight) (evs : List (Event × Nat × Bool)) : Twilight :=
  evs.foldl (fun s e => (s.handle e.1 e.2.1 e.2.2).state) st

/-- Running `Twilight.handle` over a list of events while accumulating the
total number of invocations of the opaque post operation. -/
def runPosts : Twilight → List (Event × Nat × Bool) → Nat
  | _, [] => 0
  | st, e :: evs =>
      let o := st.handle e.1 e.2.1 e.2.2
      postsIn o.trace + runPosts o.state evs

/-- The C1 invariant: the stored server count is exactly the cardinality of
the membership cache. -/
def cardInv (st : Twilight) : Prop :=
  st.stats.server_count = some st.cache.card

/-- Events that change no membership: a `GuildCreate` whose id is cached, a
`GuildDelete` whose id is not, or any event kind other than the three
handled ones. -/
def noChangeEvent (st : Twilight) (e : Event) : Bool :=
  match e with
  | Event.ready _ => false
  | Event.guildCreate id => decide (id ∈ st.cache)
  | Event.guildDelete id => decide (id ∉ st.cache)
  | Event.other => true

/-- `Autoposter::new` (`mod.rs` lines 124-133): asserts
`interval.as_secs() >= 900` (panicking otherwise, modelled as `none`), then
wraps the handler. `interval` is in nanoseconds; `Duration::as_secs`
truncates to whole seconds. -/
def Autoposter.new {H : Type} (handler : H) (interval : Nat) : Option H :=
  if interval / 1000000000 ≥ 900 then some handler else none

section Lemmas

/-- `try_post` only ever touches `last_post`: cache, stats and the interval
of the resulting state are those of the input state. -/
theorem try_post_state (st : Twilight) (now : Nat) (ok : Bool) :
    (st.try_post now ok).state =
      if gateOpen st now then { st with last_post := some now } else st := by
  unfold Twilight.try_post
  split <;> rfl

/-- The opaque post operation is invoked exactly when the gate is open. -/
theorem try_post_posted (st : Twilight) (now : Nat) (ok : Bool) :
    (st.try_post now ok).posted = gateOpen st now := by
  unfold Twilight.try_post
  split <;> simp_all

/-- The trace of one `try_post` call holds one post action when the gate is
open and none otherwise. -/
theorem try_post_postsIn (st : Twilight) (now : Nat) (ok : Bool) :
    postsIn (st.try_post now ok).trace = if gateOpen st now then 1 else 0 := by
  unfold Twilight.try_post
  rcases h : gateOpen st now <;> rcases ok <;> simp [h, postsIn]

/-- The trace of one `try_post` call holds exactly one `last_post` mutex
acquisition. -/
theorem try_post_attemptsIn (st : Twilight) (now : Nat) (ok : Bool) :
    attemptsIn (st.try_post now ok).trace = 1 := by
  unfold Twilight.try_post
  rcases h : gateOpen st now <;> rcases ok <;> simp [h, attemptsIn]

end Lemmas

section InvariantLemmas

/-- One `handle` call preserves the cardinality invariant. -/
theorem handle_cardInv (st : Twilight) (e : Event) (now : Nat) (ok : Bool)
    (h : cardInv st) : cardInv (st.handle e now ok).state := by
  rcases e with guilds | id | id | _
  · simp only [Twilight.handle, try_post_state]
    unfold cardInv at *
    split <;> simp [Stats.set_server_count]
  · simp only [Twilight.handle]
    split
    · exact h
    · simp only [try_post_state]
      unfold cardInv at *
      split <;> simp [Stats.set_server_count]
  · simp only [Twilight.handle]
    split
    · simp only [try_post_state]
      unfold cardInv at *
      split <;> simp [Stats.set_server_count]
    · exact h
  · exact h

/-- `processAll` preserves the cardinality invariant. -/
theorem processAll_cardInv_preserved (evs : List (Event × Nat × Bool))
    (st : Twilight) (h : cardInv st) : cardInv (processAll st evs) := by
  induction evs generalizing st with
  | nil => exact h
  | cons e rest ih =>
      rw [processAll] at *
      simp only [List.foldl_cons]
      exact ih _ (handle_cardInv st e.1 e.2.1 e.2.2 h)

end InvariantLemmas

/-- C1: starting from a freshly constructed `Twilight` (empty cache, server
count defaulted to `0`), after any finite sequence of handled events the
cardinality of the cached guild-id set equals the value stored in the stats'
`server_count`. -/
theorem processAll_cardInv (mi : Nat) (evs : List (Event × Nat × Bool)) :
    cardInv (processAll (Twilight.new mi) evs) := by
  refine processAll_cardInv_preserved evs _ ?_
  simp [cardInv, Twilight.new, Stats.fromCount]

/-- The gate condition, spelled out on `last_post`. -/
theorem gateOpen_iff (st : Twilight) (now : Nat) :
    gateOpen st now = true ↔
      (st.last_post = none ∨ ∃ l, st.last_post = some l ∧ st.min_interval ≤ now - l) := by
  unfold gateOpen
  rcases st.last_post <;> simp

/-- Every post in a `try_post` trace is preceded by the `last_post := now`
stamp. -/
theorem try_post_stampBeforePost (st : Twilight) (now : Nat) (ok : Bool) :
    stampBeforePost now (st.try_post now ok).trace = true := by
  unfold Twilight.try_post
  rcases h : gateOpen st now <;> rcases ok <;>
    simp [h, stampBeforePost, stampBeforePostAux]

/-- C2: in `try_post` with `now` captured at entry, the post operation is
invoked iff `last_post` is `None` or `now - last_post >= min_interval`; when
invoked, `last_post` is stamped to `now` before the post operation executes;
when not invoked, `last_post` (and everything else) is unchanged and no post
occurs. -/
theorem try_post_gate_spec (st : Twilight) (now : Nat) (postOk : Bool) :
    ((st.try_post now postOk).posted = true ↔
      (st.last_post = none ∨ ∃ l, st.last_post = some l ∧ st.min_interval ≤ now - l))
    ∧ (st.try_post now postOk).state.last_post
        = (if (st.try_post now postOk).posted then some now else st.last_post)
    ∧ (st.try_post now postOk).state.cache = st.cache
    ∧ (st.try_post now postOk).state.stats = st.stats
    ∧ (st.try_post now postOk).state.min_interval = st.min_interval
    ∧ postsIn (st.try_post now postOk).trace
        = (if (st.try_post now postOk).posted then 1 else 0)
    ∧ stampBeforePost now (st.try_post now postOk).trace = true := by
  refine ⟨?_, ?_, ?_, ?_, ?_, ?_, try_post_stampBeforePost st now postOk⟩
  · rw [← gateOpen_iff, try_post_posted]
  all_goals simp only [try_post_posted, try_post_state, try_post_postsIn] <;>
    rcases h : gateOpen st now <;> simp [h]

/-- The action trace of a fresh handler (900 s interval) receiving
`Ready [1]` at instant 0 with a succeeding post. -/
def readyOneTrace : List Act :=
  ((Twilight.new (900 * 1000000000)).handle (Event.ready [1]) 0 true).trace

/-- C3: counter-evidence. On a fresh handler receiving `Ready [1]`, the
opaque post operation (trace index 7) executes while the `last_post` mutex
guard, the stats read guard, the stats write guard and the cache guard are
all still held; moreover the read-acquisition of the stats lock (index 6)
happens while the same task already holds the stats write guard, so the
call can never proceed under tokio's non-reentrant `RwLock`. -/
theorem ready_post_holds_locks :
    (readyOneTrace.get? 7 = some (Act.post { server_count := some 1, shard_count := none }))
    ∧ heldAt readyOneTrace 7
        = [Lock.statsReadL, Lock.lastPostL, Lock.statsWriteL, Lock.cacheL]
    ∧ readyOneTrace.get? 6 = some (Act.acquire Lock.statsReadL)
    ∧ Lock.statsWriteL ∈ heldAt readyOneTrace 6
    ∧ Lock.lastPostL ∈ heldAt readyOneTrace 7 := by
  decide

/-- C4: an event that changes no membership — a `GuildCreate` whose id is
already cached, a `GuildDelete` whose id is absent, or any unhandled event
kind — leaves the whole state (cache, stats, `last_post`) unchanged, makes
no post and no post attempt. -/
theorem no_change_event_frame (st : Twilight) (e : Event) (now : Nat) (postOk : Bool)
    (h : noChangeEvent st e = true) :
    (st.handle e now postOk).state = st
    ∧ (st.handle e now postOk).posted = false
    ∧ postsIn (st.handle e now postOk).trace = 0
    ∧ attemptsIn (st.handle e now postOk).trace = 0 := by
  rcases e with guilds | id | id | _ <;>
    simp [noChangeEvent] at h <;>
    simp [Twilight.handle, h, postsIn, attemptsIn, List.countP_cons, List.countP_nil]

/-- Witness for C4 at a concrete no-change input (re-delivered
`GuildCreate 1` with `1` already cached). -/
theorem no_change_event_frame_witness :
    noChangeEvent { cache := {1}, stats := Stats.fromCount 1, min_interval := 900,
                    last_post := none } (Event.guildCreate 1) = true
    ∧ ((({ cache := {1}, stats := Stats.fromCount 1, min_interval := 900,
           last_post := none } : Twilight).handle (Event.guildCreate 1) 5 true).state
        = { cache := {1}, stats := Stats.fromCount 1, min_interval := 900, last_post := none }
      ∧ (({ cache := {1}, stats := Stats.fromCount 1, min_interval := 900,
            last_post := none } : Twilight).handle (Event.guildCreate 1) 5 true).posted = false
      ∧ postsIn (({ cache := {1}, stats := Stats.fromCount 1, min_interval := 900,
                    last_post := none } : Twilight).handle (Event.guildCreate 1) 5 true).trace = 0
      ∧ attemptsIn (({ cache := {1}, stats := Stats.fromCount 1, min_interval := 900,
                       last_post := none } : Twilight).handle (Event.guildCreate 1) 5 true).trace
          = 0) :=
  ⟨by decide, no_change_event_frame _ _ 5 true (by decide)⟩

/-- The gate only looks at `last_post` and `min_interval`, so updating cache
and stats leaves it unchanged. -/
theorem gateOpen_update (st : Twilight) (c : Finset Nat) (s : Stats) (now : Nat) :
    gateOpen { st with cache := c, stats := s } now = gateOpen st now := rfl

/-- C5: a `Ready` event carrying guild set `G` wholesale-replaces the cache
with `G`'s ids, stores `G`'s cardinality into `server_count`, and attempts a
post via `try_post` unconditionally — in particular even when the new
cardinality equals the old one, the attempt is made, and the post fires
whenever the gate is open. -/
theorem ready_resync_spec (st : Twilight) (guilds : List Nat) (now : Nat) (postOk : Bool) :
    (st.handle (Event.ready guilds) now postOk).state.cache = guilds.toFinset
    ∧ (st.handle (Event.ready guilds) now postOk).state.stats.server_count
        = some guilds.toFinset.card
    ∧ attemptsIn (st.handle (Event.ready guilds) now postOk).trace = 1
    ∧ (st.handle (Event.ready guilds) now postOk).posted = gateOpen st now
    ∧ postsIn (st.handle (Event.ready guilds) now postOk).trace
        = (if gateOpen st now then 1 else 0) := by
  refine ⟨?_, ?_, ?_, ?_, ?_⟩ <;>
    simp only [Twilight.handle, try_post_state, try_post_posted, attemptsIn, postsIn,
      List.countP_append, gateOpen_update] <;>
    rcases h : gateOpen st now <;>
    simp [Twilight.try_post, gateOpen_update, h, Stats.set_server_count, List.countP_cons]

/-- C6: `Autoposter::new` fails fatally iff the interval is shorter than
900 seconds; in particular 899 s is rejected and 900 s is accepted. -/
theorem autoposter_new_interval_floor (H : Type) (handler : H) (interval : Nat) :
    ((Autoposter.new handler interval).isNone ↔ interval < 900 * 1000000000)
    ∧ (Autoposter.new handler (899 * 1000000000)).isNone = true
    ∧ (Autoposter.new handler (900 * 1000000000)).isSome = true := by
  have key : interval / 1000000000 < 900 ↔ interval < 900 * 1000000000 :=
    Nat.div_lt_iff_lt_mul (by norm_num)
  refine ⟨?_, by norm_num [Autoposter.new], by norm_num [Autoposter.new]⟩
  rw [← key, Autoposter.new]
  split
  · rename_i hle
    simp [Nat.not_lt.mpr hle]
  · rename_i hlt
    simp [Nat.not_le.mp (by simpa using hlt)]

/-- At most one invocation of the opaque post operation per `handle` call. -/
theorem handle_postsIn_le_one (st : Twilight) (e : Event) (now : Nat) (ok : Bool) :
    postsIn (st.handle e now ok).trace ≤ 1 := by
  have h1 : ∀ s m, postsIn (Twilight.try_post s m ok).trace ≤ 1 := by
    intro s m
    rw [try_post_postsIn]
    split <;> norm_num
  rcases e with guilds | id | id | _
  · simpa [Twilight.handle, postsIn, List.countP_append, List.countP_cons] using h1 _ _
  · simp only [Twilight.handle]
    split
    · simp [postsIn, List.countP_cons, List.countP_nil]
    · simpa [postsIn, List.countP_append, List.countP_cons] using h1 _ _
  · simp only [Twilight.handle]
    split
    · simpa [postsIn, List.countP_append, List.countP_cons] using h1 _ _
    · simp [postsIn, List.countP_cons, List.countP_nil]
  · simp [postsIn, Twilight.handle]

/-- A `handle` call arriving while the gate is closed never invokes the
opaque post operation, whatever the event. -/
theorem handle_postsIn_gate_closed (st : Twilight) (e : Event) (now : Nat) (ok : Bool)
    (h : gateOpen st now = false) : postsIn (st.handle e now ok).trace = 0 := by
  have h1 : ∀ c s,
      postsIn (Twilight.try_post { st with cache := c, stats := s } now ok).trace = 0 := by
    intro c s
    rw [try_post_postsIn, gateOpen_update, h]
    rfl
  rcases e with guilds | id | id | _
  · simpa [Twilight.handle, postsIn, List.countP_append, List.countP_cons] using h1 _ _
  · simp only [Twilight.handle]
    split
    · simp [postsIn, List.countP_cons, List.countP_nil]
    · simpa [postsIn, List.countP_append, List.countP_cons] using h1 _ _
  · simp only [Twilight.handle]
    split
    · simpa [postsIn, List.countP_append, List.countP_cons] using h1 _ _
    · simp [postsIn, List.countP_cons, List.countP_nil]
  · simp [postsIn, Twilight.handle]

/-- No event path of `handle` writes the shard count. -/
theorem handle_shard_count (st : Twilight) (e : Event) (now : Nat) (ok : Bool) :
    (st.handle e now ok).state.stats.shard_count = st.stats.shard_count := by
  rcases e with guilds | id | id | _
  · simp only [Twilight.handle, try_post_state]
    split <;> simp [Stats.set_server_count]
  · simp only [Twilight.handle]
    split
    · rfl
    · simp only [try_post_state]
      split <;> simp [Stats.set_server_count]
  · simp only [Twilight.handle]
    split
    · simp only [try_post_state]
      split <;> simp [Stats.set_server_count]
    · rfl
  · rfl

/-- C7: `try_post` always returns `Ok(())`: a failing post is reported only
through the error log in the trace, never through the return value, and is
never retried within the same call (at most one post per `try_post` and per
`handle` call). -/
theorem try_post_never_errors (st : Twilight) (e : Event) (now : Nat) (postOk : Bool) :
    (st.try_post now postOk).ret = Except.ok ()
    ∧ postsIn (st.try_post now postOk).trace ≤ 1
    ∧ logsIn (st.try_post now postOk).trace
        = (if (st.try_post now postOk).posted && !postOk then 1 else 0)
    ∧ postsIn (st.handle e now postOk).trace ≤ 1 := by
  refine ⟨?_, ?_, ?_, handle_postsIn_le_one st e now postOk⟩
  · unfold Twilight.try_post
    split <;> rfl
  · rw [try_post_postsIn]
    split <;> norm_num
  · unfold Twilight.try_post
    rcases hg : gateOpen st now <;> rcases postOk <;>
      simp [hg, try_post_posted, logsIn, List.countP_cons, List.countP_append]

/-- C8: with a 900 s minimum interval, two qualifying (state-changing)
events 1 ms apart yield exactly one post call, and a third qualifying event
arriving once the interval has elapsed since the first post yields exactly
one more. -/
theorem min_interval_debounce (t1 t3 : Nat) (b1 b2 b3 : Bool)
    (h : 900 * 1000000000 ≤ t3 - t1) :
    runPosts (Twilight.new (900 * 1000000000))
        [(Event.guildCreate 1, t1, b1), (Event.guildCreate 2, t1 + 1000000, b2)] = 1
    ∧ runPosts (Twilight.new (900 * 1000000000))
        [(Event.guildCreate 1, t1, b1), (Event.guildCreate 2, t1 + 1000000, b2),
         (Event.guildCreate 3, t3, b3)] = 2 := by
  have s1 : ((Twilight.new (900 * 1000000000)).handle (Event.guildCreate 1) t1 b1).state
      = { cache := {1}, stats := { server_count := some 1, shard_count := none },
          min_interval := 900 * 1000000000, last_post := some t1 } := by
    simp [Twilight.new, Twilight.handle, Twilight.try_post, gateOpen,
      Stats.fromCount, Stats.set_server_count]
  have p1 : postsIn ((Twilight.new (900 * 1000000000)).handle (Event.guildCreate 1) t1 b1).trace
      = 1 := by
    rcases b1 <;>
      simp [Twilight.new, Twilight.handle, Twilight.try_post, gateOpen,
        Stats.fromCount, Stats.set_server_count, postsIn, List.countP_cons, List.countP_append]
  have s2 : (Twilight.handle
      { cache := {1}, stats := { server_count := some 1, shard_count := none },
        min_interval := 900 * 1000000000, last_post := some t1 }
      (Event.guildCreate 2) (t1 + 1000000) b2).state
      = { cache := insert 2 {1}, stats := { server_count := some 2, shard_count := none },
          min_interval := 900 * 1000000000, last_post := some t1 } := by
    simp [Twilight.handle, Twilight.try_post, gateOpen, Nat.add_sub_cancel_left,
      Stats.set_server_count]
  have p2 : postsIn (Twilight.handle
      { cache := {1}, stats := { server_count := some 1, shard_count := none },
        min_interval := 900 * 1000000000, last_post := some t1 }
      (Event.guildCreate 2) (t1 + 1000000) b2).trace = 0 := by
    simp [Twilight.handle, Twilight.try_post, gateOpen, Nat.add_sub_cancel_left,
      Stats.set_server_count, postsIn, List.countP_cons, List.countP_append]
  have p3 : postsIn (Twilight.handle
      { cache := insert 2 {1}, stats := { server_count := some 2, shard_count := none },
        min_interval := 900 * 1000000000, last_post := some t1 }
      (Event.guildCreate 3) t3 b3).trace = 1 := by
    rcases b3 <;>
      simp [Twilight.handle, Twilight.try_post, gateOpen, h,
        Stats.set_server_count, postsIn, List.countP_cons, List.countP_append]
  refine ⟨?_, ?_⟩ <;>
    simp [runPosts, s1, p1, s2, p2, p3]

/-- Witness for C8 at `t1 = 0`, `t3 = 900 s`, all posts succeeding. -/
theorem min_interval_debounce_witness :
    900 * 1000000000 ≤ 900 * 1000000000 - 0
    ∧ (runPosts (Twilight.new (900 * 1000000000))
          [(Event.guildCreate 1, 0, true), (Event.guildCreate 2, 0 + 1000000, true)] = 1
      ∧ runPosts (Twilight.new (900 * 1000000000))
          [(Event.guildCreate 1, 0, true), (Event.guildCreate 2, 0 + 1000000, true),
           (Event.guildCreate 3, 900 * 1000000000, true)] = 2) :=
  ⟨by norm_num, min_interval_debounce 0 (900 * 1000000000) true true true (by norm_num)⟩

/-- C9: whenever the gate is open, `last_post` is stamped with the attempt
time whether the post succeeds or fails; after a failed attempt, any event
arriving within `min_interval` of it finds the gate closed and triggers no
post — the gate records attempts, not successes. -/
theorem gate_records_attempts (st : Twilight) (e : Event) (now now2 : Nat) (ok2 : Bool)
    (hgate : gateOpen st now = true) (hlt : now2 - now < st.min_interval) :
    (st.try_post now false).state.last_post = some now
    ∧ (st.try_post now true).state.last_post = some now
    ∧ ((st.try_post now false).state.try_post now2 ok2).posted = false
    ∧ postsIn ((st.try_post now false).state.handle e now2 ok2).trace = 0 := by
  have hclosed : gateOpen (st.try_post now false).state now2 = false := by
    rw [try_post_state, hgate]
    simp only [if_true, gateOpen]
    simp
    omega
  refine ⟨?_, ?_, ?_, handle_postsIn_gate_closed _ e now2 ok2 hclosed⟩
  · rw [try_post_state, hgate]
    simp
  · rw [try_post_state, hgate]
    simp
  · rw [try_post_posted, hclosed]

/-- Witness for C9 on a fresh handler: failed attempt at `t = 5`, qualifying
event at `t = 6`. -/
theorem gate_records_attempts_witness :
    gateOpen (Twilight.new (900 * 1000000000)) 5 = true
    ∧ 6 - 5 < (Twilight.new (900 * 1000000000)).min_interval
    ∧ (((Twilight.new (900 * 1000000000)).try_post 5 false).state.last_post = some 5
      ∧ ((Twilight.new (900 * 1000000000)).try_post 5 true).state.last_post = some 5
      ∧ (((Twilight.new (900 * 1000000000)).try_post 5 false).state.try_post 6 true).posted
          = false
      ∧ postsIn (((Twilight.new (900 * 1000000000)).try_post 5 false).state.handle
          (Event.guildCreate 7) 6 true).trace = 0) :=
  ⟨by decide, by decide,
    gate_records_attempts _ (Event.guildCreate 7) 5 6 true (by decide) (by decide)⟩

/-- C10: no event path of `handle` ever modifies `shard_count`; it keeps the
construction default `none` through any event sequence, and only the
external `set_shard_count` accessor writes it. -/
theorem handle_never_touches_shard_count (st : Twilight) (e : Event) (now : Nat) (ok : Bool) :
    (st.handle e now ok).state.stats.shard_count = st.stats.shard_count
    ∧ (∀ evs, (processAll st evs).stats.shard_count = st.stats.shard_count)
    ∧ (∀ mi, (Twilight.new mi).stats.shard_count = none)
    ∧ (∀ s n, (Stats.set_shard_count s n).shard_count = some n) := by
  have hAll : ∀ (evs : List (Event × Nat × Bool)) (s : Twilight),
      (processAll s evs).stats.shard_count = s.stats.shard_count := by
    intro evs
    induction evs with
    | nil => intro s; rfl
    | cons a rest ih =>
        intro s
        have hstep : processAll s (a :: rest)
            = processAll (s.handle a.1 a.2.1 a.2.2).state rest := rfl
        rw [hstep, ih, handle_shard_count]
  exact ⟨handle_shard_count st e now ok, fun evs => hAll evs st,
    fun mi => rfl, fun s n => rfl⟩
